import Mathlib

/-!
Shallow embedding of the ElkEngine memory-management core
(`src/ElkEngine/Public/ElkEngine/Core/Memory/*.h`,
`src/ElkEngine/Private/Core/Memory/*.cpp`) and proofs about it.

Modelling conventions:
* `size_t` / pointer values are `Nat`; where the C++ code relies on 64-bit
  wraparound or bit masks, the reduction modulo `2 ^ 64` is explicit.
* Pointers are plain addresses; the null pointer is the address `0`.
* Atomic code is modelled sequentially; for the CAS retry loop in
  `StackAllocator::Allocate` an explicit interference schedule (the list of
  cursor values installed by racing threads between our load and our CAS)
  makes each lost race a deterministic loop iteration.
* `float` zone percentages are modelled as exact rationals; the dyadic
  weights used in the claims (e.g. 0.5) are exactly representable, so the
  idealization is exact on all inputs the claims mention.
* Log output is not modelled: only return values and state mutations are.
-/

namespace ElkSpec

/-- Width of `size_t` / `uintptr_t` on the target platform: 64 bits. -/
def WORD : Nat := 2 ^ 64

-- ========================================
-- Memory size constants (`MemoryConfig.h`, namespace `sizes`)
-- ========================================

namespace sizes

def KB : Nat := 1024
def MB : Nat := 1024 * KB
def GB : Nat := 1024 * MB

def MIN_TINY_ALLOCATOR : Nat := 64 * KB
def MIN_SMALL_ALLOCATOR : Nat := 256 * KB
def MIN_MEDIUM_ALLOCATOR : Nat := 1 * MB
def MIN_LARGE_ALLOCATOR : Nat := 16 * MB
def MIN_HUGE_ALLOCATOR : Nat := 64 * MB

def MAX_ALLOCATOR_SIZE : Nat := 256 * MB

def DEFAULT_STACK_SIZE : Nat := 2 * MB
def DEFAULT_POOL_SIZE : Nat := 4 * MB
def DEFAULT_HEAP_SIZE : Nat := 32 * MB
def DEFAULT_THREAD_SIZE : Nat := 1 * MB

end sizes

-- ========================================
-- `AllocatorType.h`
-- ========================================

/-- `enum class AllocatorType` from `AllocatorType.h`. -/
inductive AllocatorType where
  | Stack
  | Pool
  | Heap
  | ThreadLocal
  | Linear
deriving DecidableEq

-- ========================================
-- `MemoryConfig.h`: zones and budget
-- ========================================

/-- `enum class MemoryZone : uint8_t` from `MemoryConfig.h`. -/
inductive MemoryZone where
  | FrameTemp
  | ThreadLocal
  | Entities
  | Physics
  | Rendering
  | Assets
  | Audio
  | General
  | Debug
deriving DecidableEq

/-- All zones in declaration order (the `MemoryZone::Count`-sized index space
of the `zones_` array). -/
def allZones : List MemoryZone :=
  [.FrameTemp, .ThreadLocal, .Entities, .Physics, .Rendering, .Assets,
   .Audio, .General, .Debug]

/-- `MemoryBudget::ZoneAllocation`. The C++ `float percentage` is modelled
as an exact rational. -/
structure ZoneAllocation where
  zone : MemoryZone
  percentage : Rat
  minSize : Nat
  maxSize : Nat
  canGrow : Bool
deriving DecidableEq

/-- `struct MemoryBudget`. -/
structure MemoryBudget where
  totalSize : Nat := 1 * sizes.GB
  zoneAllocations : List ZoneAllocation := []
deriving DecidableEq

/-- `static_cast<size_t>` of a non-negative real value: truncation toward
zero. (A negative argument is undefined behaviour in C++; here it yields 0.) -/
def castToSizeT (q : Rat) : Nat := q.num.toNat / q.den

/-- The body of the matching branch of `MemoryBudget::GetZoneSize`:
`calculatedSize = static_cast<size_t>(totalSize * percentage)`, clamped
below to `minSize` and then above to `maxSize` by two sequential ifs. -/
def clampedZoneSize (totalSize : Nat) (a : ZoneAllocation) : Nat :=
  let calculatedSize := castToSizeT ((totalSize : Rat) * a.percentage)
  let clampedLow :=
    if calculatedSize < a.minSize then a.minSize else calculatedSize
  let clampedHigh :=
    if clampedLow > a.maxSize then a.maxSize else clampedLow
  clampedHigh

/-- The loop of `MemoryBudget::GetZoneSize`: return the clamped size of the
first entry for the requested zone; `0` when no entry matches. -/
def GetZoneSizeAux (totalSize : Nat) (z : MemoryZone) :
    List ZoneAllocation → Nat
  | [] => 0
  | a :: rest =>
    if a.zone = z then clampedZoneSize totalSize a
    else GetZoneSizeAux totalSize z rest

/-- `MemoryBudget::GetZoneSize(zone)` from `MemoryConfig.h`. -/
def MemoryBudget.GetZoneSize (b : MemoryBudget) (z : MemoryZone) : Nat :=
  GetZoneSizeAux b.totalSize z b.zoneAllocations

/-- The spec's description of the realized zone size: "clamp(totalBytes ×
weight, minBytes, maxBytes)", written with `min`/`max` as the spec words it.
Used to compare the code's sequential-if clamp against the spec. -/
def zoneSizeSpec (totalSize : Nat) (a : ZoneAllocation) : Nat :=
  min a.maxSize (max a.minSize (castToSizeT ((totalSize : Rat) * a.percentage)))

-- ========================================
-- `MemorySizeValidator` (`MemoryConfig.h`)
-- ========================================

/-- `MemorySizeValidator::ValidateSize(requestedSize, type)`. -/
def ValidateSize (requestedSize : Nat) (type : AllocatorType) : Bool :=
  let ABSOLUTE_MIN := 4 * sizes.KB
  if requestedSize < ABSOLUTE_MIN then false
  else
    match type with
    | .Stack =>
      decide (requestedSize ≥ sizes.MIN_SMALL_ALLOCATOR) &&
      decide (requestedSize ≤ sizes.MAX_ALLOCATOR_SIZE)
    | .Pool =>
      decide (requestedSize ≥ 4 * sizes.KB) &&
      decide (requestedSize ≤ sizes.MAX_ALLOCATOR_SIZE)
    | .Heap =>
      decide (requestedSize ≥ sizes.MIN_MEDIUM_ALLOCATOR) &&
      decide (requestedSize ≤ sizes.MAX_ALLOCATOR_SIZE)
    | .ThreadLocal =>
      decide (requestedSize ≥ sizes.MIN_SMALL_ALLOCATOR) &&
      decide (requestedSize ≤ sizes.MIN_LARGE_ALLOCATOR)
    | .Linear =>
      decide (requestedSize ≥ sizes.MIN_TINY_ALLOCATOR) &&
      decide (requestedSize ≤ sizes.MAX_ALLOCATOR_SIZE)

/-- `MemorySizeValidator::AdjustToRecommended(requestedSize, type)`. -/
def AdjustToRecommended (requestedSize : Nat) (type : AllocatorType) : Nat :=
  if ValidateSize requestedSize type then requestedSize
  else
    match type with
    | .Stack => sizes.DEFAULT_STACK_SIZE
    | .Pool => sizes.DEFAULT_POOL_SIZE
    | .Heap => sizes.DEFAULT_HEAP_SIZE
    | .ThreadLocal => sizes.DEFAULT_THREAD_SIZE
    | .Linear => sizes.MIN_MEDIUM_ALLOCATOR

-- ========================================
-- `IAllocator.h` helpers
-- ========================================

/-- `IAllocator::AlignUp(size, alignment)`:
`(size + alignment - 1) & ~(alignment - 1)` on `size_t`. The complement of
`x` on a 64-bit word is `2^64 - 1 - x`; the sum wraps modulo `2^64`. Every
call site guards with `IsPowerOfTwo(alignment)`, so `alignment ≥ 1`. -/
def AlignUp (size alignment : Nat) : Nat :=
  ((size + alignment - 1) % WORD) &&& (WORD - 1 - (alignment - 1) % WORD)

/-- `IAllocator::IsPowerOfTwo(value)`: `value > 0 && (value & (value - 1)) == 0`. -/
def IsPowerOfTwo (value : Nat) : Bool :=
  decide (value > 0) && ((value &&& (value - 1)) == 0)

-- ========================================
-- `StackAllocator` state (`StackAllocator.h` / `StackAllocator.cpp`)
-- ========================================

/-- The fields of `StackAllocator` (the name string is omitted; it feeds only
log messages). `headerSize` is `sizeof(AllocationHeader)` when the debug
headers build flag is on and `0` otherwise. -/
structure StackState where
  memory : Nat
  msize : Nat
  offset : Nat
  peakUsage : Nat
  allocationCount : Nat
  casRetryCount : Nat
  headerSize : Nat
deriving DecidableEq

/-- The constructor `StackAllocator(memory, size, name)`: cursor, peak,
allocation count and CAS retry count all start at zero. -/
def mkStackAllocator (memory msize headerSize : Nat) : StackState :=
  { memory := memory, msize := msize, offset := 0, peakUsage := 0,
    allocationCount := 0, casRetryCount := 0, headerSize := headerSize }

/-- The per-iteration computation of the CAS loop in
`StackAllocator::Allocate` (lines 47-55): from the loaded cursor, the
aligned offset, the aligned pointer and the candidate new cursor, in that
order. -/
def allocCompute (st : StackState) (size alignment : Nat) :
    Nat × Nat × Nat :=
  let currentOffset := st.offset
  let rawAddress := st.memory + currentOffset + st.headerSize
  let alignedOffset :=
    currentOffset + st.headerSize + (AlignUp rawAddress alignment - rawAddress)
  let alignedPtr := st.memory + alignedOffset
  let newOffset := alignedOffset + size
  (alignedOffset, alignedPtr, newOffset)

/-- The `do … while (!compare_exchange_weak …)` loop of
`StackAllocator::Allocate` plus the post-loop statistics update. Each entry
of `sched` is a cursor value installed by a racing thread between our load
and our CAS, making that CAS fail; when `sched` is exhausted the CAS
succeeds. Note the loop body does not touch `casRetryCount` (the field is
declared and displayed but never incremented in the source). -/
def allocLoop (size alignment : Nat) :
    StackState → List Nat → Option Nat × StackState
  | st, sched =>
    let c := allocCompute st size alignment
    if c.2.2 > st.msize then
      (none, st)
    else
      match sched with
      | [] =>
        let st1 := { st with offset := c.2.2,
                             allocationCount := st.allocationCount + 1 }
        let st2 := { st1 with peakUsage :=
          if c.2.2 > st1.peakUsage then c.2.2 else st1.peakUsage }
        (some c.2.1, st2)
      | o :: rest => allocLoop size alignment { st with offset := o } rest

/-- `StackAllocator::Allocate(size, alignment)` (`StackAllocator.cpp`
lines 24-82): reject `size == 0`, reject a non-power-of-two alignment, then
run the CAS loop. -/
def Allocate (st : StackState) (size alignment : Nat) (sched : List Nat) :
    Option Nat × StackState :=
  if size = 0 then (none, st)
  else if !IsPowerOfTwo alignment then (none, st)
  else allocLoop size alignment st sched

/-- `StackAllocator::Reset()`: unconditionally store 0 into the cursor. -/
def Reset (st : StackState) : StackState := { st with offset := 0 }

/-- `StackAllocator::Rewind(marker)` (`StackAllocator.cpp` lines 127-141). -/
def Rewind (st : StackState) (marker : Nat) : StackState :=
  if marker > st.msize then st
  else if marker > st.offset then st
  else { st with offset := marker }

/-- `StackAllocator::GetUsedMemory()`: the cursor. -/
def GetUsedMemory (st : StackState) : Nat := st.offset

/-- `StackAllocator::GetPeakUsage()`. -/
def GetPeakUsage (st : StackState) : Nat := st.peakUsage

/-- One sequential public operation against a `StackAllocator`
(`Deallocate` is the documented no-op). -/
inductive StackOp where
  | alloc (size alignment : Nat)
  | dealloc
  | reset
  | rewind (marker : Nat)

/-- Execute one operation (allocations race-free: empty schedule). -/
def stackStep (st : StackState) : StackOp → StackState
  | .alloc size alignment => (Allocate st size alignment []).2
  | .dealloc => st
  | .reset => Reset st
  | .rewind m => Rewind st m

/-- Execute a sequence of operations. -/
def runOps (st : StackState) (ops : List StackOp) : StackState :=
  ops.foldl stackStep st

/-- Two reserved byte ranges `[start, stop)` (as cursor offsets) do not
overlap. -/
def RangeDisjoint (a b : Nat × Nat) : Prop := a.2 ≤ b.1 ∨ b.2 ≤ a.1

instance (a b : Nat × Nat) : Decidable (RangeDisjoint a b) := by
  unfold RangeDisjoint
  infer_instance

/-- Ghost semantics tracking live reserved ranges alongside the allocator.
A successful allocation records `[loaded cursor, new cursor)` — padding and
any debug header included. `Reset` invalidates every allocation. A
successful `Rewind(marker)` invalidates every allocation whose reserved
range extends above the marker: rewinding into the middle of a range kills
it, since the bytes above the marker can be handed out again. -/
def liveStep (s : StackState × List (Nat × Nat)) (op : StackOp) :
    StackState × List (Nat × Nat) :=
  match op with
  | .alloc size alignment =>
    match Allocate s.1 size alignment [] with
    | (some _, st') => (st', (s.1.offset, st'.offset) :: s.2)
    | (none, st') => (st', s.2)
  | .dealloc => s
  | .reset => (Reset s.1, [])
  | .rewind m =>
    if m ≤ s.1.msize ∧ m ≤ s.1.offset then
      (Rewind s.1 m, s.2.filter fun r => r.2 ≤ m)
    else (Rewind s.1 m, s.2)

/-- Run the range-tracking semantics over an operation sequence. -/
def runLive (s : StackState × List (Nat × Nat)) (ops : List StackOp) :
    StackState × List (Nat × Nat) :=
  ops.foldl liveStep s

/-- The claim's literal liveness reading: an allocation stays live unless a
later Reset/Rewind moved the cursor to a marker at or below its reserved
START ("made after the last Reset/Rewind below it"): a cursor store to `v`
keeps exactly the ranges starting strictly below `v`, so a rewind into the
middle of a range leaves it live. -/
def liveStepClaim (s : StackState × List (Nat × Nat)) (op : StackOp) :
    StackState × List (Nat × Nat) :=
  match op with
  | .alloc size alignment =>
    match Allocate s.1 size alignment [] with
    | (some _, st') => (st', (s.1.offset, st'.offset) :: s.2)
    | (none, st') => (st', s.2)
  | .dealloc => s
  | .reset => (Reset s.1, s.2.filter fun r => r.1 < 0)
  | .rewind m =>
    if m ≤ s.1.msize ∧ m ≤ s.1.offset then
      (Rewind s.1 m, s.2.filter fun r => r.1 < m)
    else (Rewind s.1 m, s.2)

/-- Run the claim-literal liveness semantics. -/
def runLiveClaim (s : StackState × List (Nat × Nat)) (ops : List StackOp) :
    StackState × List (Nat × Nat) :=
  ops.foldl liveStepClaim s

/-- Invariant of the range-tracking semantics: every live range is
non-empty and closes at or below the cursor, and live ranges are pairwise
disjoint. -/
def LiveInv (s : StackState × List (Nat × Nat)) : Prop :=
  (∀ r ∈ s.2, r.1 < r.2 ∧ r.2 ≤ s.1.offset) ∧ s.2.Pairwise RangeDisjoint

-- ========================================
-- `MemoryManager` (`MemoryManager.h` / `MemoryManager.cpp`)
-- ========================================

/-- `MemoryManager::ZoneData` (the per-zone mutex serializes carving and is
not part of the sequential model). -/
structure ZoneData where
  baseAddress : Nat := 0
  totalSize : Nat := 0
  usedSize : Nat := 0
  offset : Nat := 0
  canGrow : Bool := false
deriving DecidableEq

/-- The fields of `MemoryManager`. The allocator registry keeps `(zone,
size)` per record (the pointer, name and timestamp feed only diagnostics).
The global memory pointer is `none` when null. -/
structure ManagerState where
  initialized_ : Bool := false
  globalMemory_ : Option Nat := none
  globalMemorySize_ : Nat := 0
  budget_ : MemoryBudget := {}
  zones_ : MemoryZone → ZoneData := fun _ => {}
  allocators_ : List (MemoryZone × Nat) := []
  peakUsage_ : Nat := 0
  totalAllocatorCount_ : Nat := 0

/-- The zero-initialized singleton before the first `Initialize` call. -/
def initialManager : ManagerState := {}

/-- `MemoryManager::CalculateActualUsage()`: sum of `usedSize` over all
zones. -/
def CalculateActualUsage (zones : MemoryZone → ZoneData) : Nat :=
  (allZones.map (fun z => (zones z).usedSize)).sum

/-- `MemoryManager::UpdatePeakUsage()`: CAS-max the global peak against the
recomputed usage (sequentially, a plain max guarded by the loop condition). -/
def ManagerUpdatePeakUsage (st : ManagerState) : ManagerState :=
  let currentUsage := CalculateActualUsage st.zones_
  { st with peakUsage_ :=
      if currentUsage > st.peakUsage_ then currentUsage else st.peakUsage_ }

/-- The loop of `MemoryManager::InitializeZones()`: walk the budget's zone
allocations in declaration order, giving each listed zone the budget-computed
size and the running base address. -/
def InitializeZonesAux (budget : MemoryBudget) :
    (MemoryZone → ZoneData) → Nat → List ZoneAllocation →
    (MemoryZone → ZoneData)
  | zones, _, [] => zones
  | zones, currentAddress, a :: rest =>
    let zoneSize := budget.GetZoneSize a.zone
    let zones' := fun z =>
      if z = a.zone then
        { baseAddress := currentAddress, totalSize := zoneSize,
          usedSize := 0, offset := 0, canGrow := a.canGrow }
      else zones z
    InitializeZonesAux budget zones' (currentAddress + zoneSize) rest

/-- `MemoryManager::InitializeZones()`. The C++ function ends in an
unconditional `return true`, so the result flag is constantly `true`
(making the failure branch in `Initialize` dead code). -/
def InitializeZones (st : ManagerState) (base : Nat) :
    Bool × (MemoryZone → ZoneData) :=
  (true, InitializeZonesAux st.budget_ st.zones_ base st.budget_.zoneAllocations)

/-- `MemoryManager::Initialize(budget)` (`MemoryManager.cpp` lines 32-69).
`os` is the OS Memory Bridge (`AllocateOSMemory`): given a byte count it
returns the reserved base address or `none` on failure. The result carries
the returned `bool`, the post state and the number of times the OS
reservation primitive was invoked during the call. -/
def Initialize (os : Nat → Option Nat) (st : ManagerState)
    (budget : MemoryBudget) : Bool × ManagerState × Nat :=
  if st.initialized_ then
    (true, st, 0)
  else
    let st1 := { st with budget_ := budget,
                         globalMemorySize_ := budget.totalSize }
    match os st1.globalMemorySize_ with
    | none => (false, { st1 with globalMemory_ := none }, 1)
    | some base =>
      let st2 := { st1 with globalMemory_ := some base }
      let zr := InitializeZones st2 base
      if !zr.1 then
        -- dead branch: `InitializeZones` always returns true
        (false, { st2 with globalMemory_ := none }, 1)
      else
        (true, { st2 with zones_ := zr.2, initialized_ := true }, 1)

/-- `MemoryManager::AllocateFromZone(zone, size)` (`MemoryManager.cpp`
lines 271-303): under the zone mutex, test the bump cursor against the zone
capacity; on success advance the cursor, add to `usedSize`, update the
global peak and return `base + oldCursor`. -/
def AllocateFromZone (st : ManagerState) (zone : MemoryZone) (size : Nat) :
    Option Nat × ManagerState :=
  let zoneData := st.zones_ zone
  let currentOffset := zoneData.offset
  let newOffset := currentOffset + size
  if newOffset > zoneData.totalSize then
    (none, st)
  else
    let zoneData' := { zoneData with offset := newOffset,
                                     usedSize := zoneData.usedSize + size }
    let st' := { st with zones_ := fun z =>
        if z = zone then zoneData' else st.zones_ z }
    let ptr := zoneData.baseAddress + currentOffset
    (some ptr, ManagerUpdatePeakUsage st')

/-- `MemoryManager::CreateStackAllocator(zone, size, name)`
(`MemoryManager.cpp` lines 146-178). The source carves the sub-block and
logs success but then executes `return nullptr;` under a
`// TODO: actual allocator` comment: no allocator is constructed or
registered, and the returned handle is always null. -/
def CreateStackAllocator (st : ManagerState) (zone : MemoryZone)
    (size : Nat) : Option StackState × ManagerState :=
  if !st.initialized_ then
    (none, st)
  else
    let size1 := if size = 0 then sizes.DEFAULT_STACK_SIZE else size
    let size2 := AdjustToRecommended size1 AllocatorType.Stack
    match AllocateFromZone st zone size2 with
    | (none, st') => (none, st')
    | (some _, st') => (none, st')

-- ========================================
-- Concrete fixtures used by closed theorems and witnesses
-- ========================================

/-- An OS Memory Bridge whose reservation always fails. -/
def osFail : Nat → Option Nat := fun _ => none

/-- An OS Memory Bridge that reserves every request at address 4096. -/
def osOk : Nat → Option Nat := fun _ => some 4096

/-- A small budget with no zone entries (used to drive `Initialize`). -/
def budget123 : MemoryBudget := { totalSize := 123, zoneAllocations := [] }

/-- A second, different small budget. -/
def budget456 : MemoryBudget := { totalSize := 456, zoneAllocations := [] }

/-- The budget of the spec's `GetZoneSize` scenario: 100 MiB total, one zone
with weight 0.5, min 10 MiB, max 80 MiB. -/
def budget100 : MemoryBudget :=
  { totalSize := 100 * sizes.MB,
    zoneAllocations :=
      [ { zone := .General, percentage := (1 : Rat)/2,
          minSize := 10 * sizes.MB, maxSize := 80 * sizes.MB,
          canGrow := true } ] }

/-- An initialized manager whose `FrameTemp` zone has 32 MiB capacity and an
untouched cursor: ample room for the 2 MiB stack-allocator request used as
the failing input of the `CreateStackAllocator` claim. -/
def mgrC1 : ManagerState :=
  { initialized_ := true, globalMemory_ := some 4096,
    globalMemorySize_ := 64 * sizes.MB, budget_ := {},
    zones_ := fun z =>
      if z = .FrameTemp then
        { baseAddress := 4096, totalSize := 32 * sizes.MB,
          usedSize := 0, offset := 0, canGrow := true }
      else {},
    allocators_ := [], peakUsage_ := 0, totalAllocatorCount_ := 0 }

-- ========================================
-- Helper lemmas
-- ========================================

/-- The CAS loop never touches the CAS retry counter: neither a lost race
(the recursive case) nor the final successful exchange writes it. -/
theorem allocLoop_casRetryCount (size alignment : Nat) :
    ∀ (sched : List Nat) (st : StackState),
      ((allocLoop size alignment st sched).2).casRetryCount = st.casRetryCount := by
  intro sched
  induction sched with
  | nil =>
    intro st
    unfold allocLoop
    dsimp only
    split
    · rfl
    · rfl
  | cons o rest ih =>
    intro st
    unfold allocLoop
    dsimp only
    split
    · rfl
    · exact ih { st with offset := o }

/-- Neither rejection path nor the CAS loop of `Allocate` writes the CAS
retry counter. -/
theorem Allocate_casRetryCount (st : StackState) (size alignment : Nat)
    (sched : List Nat) :
    ((Allocate st size alignment sched).2).casRetryCount = st.casRetryCount := by
  unfold Allocate
  split
  · rfl
  · split
    · rfl
    · exact allocLoop_casRetryCount size alignment sched st

/-- Closed form of a race-free (empty-schedule) `Allocate` call: the three
rejection tests in order, then the success state — cursor advanced to the
new offset, allocation count incremented, peak maxed against the new
offset, all other fields unchanged. -/
theorem Allocate_seq_eq (st : StackState) (size alignment : Nat) :
    Allocate st size alignment [] =
      if size = 0 then (none, st)
      else if !IsPowerOfTwo alignment then (none, st)
      else if (allocCompute st size alignment).2.2 > st.msize then (none, st)
      else (some (allocCompute st size alignment).2.1,
            { st with offset := (allocCompute st size alignment).2.2,
                      allocationCount := st.allocationCount + 1,
                      peakUsage :=
                        if (allocCompute st size alignment).2.2 > st.peakUsage
                        then (allocCompute st size alignment).2.2
                        else st.peakUsage }) := rfl

/-- Closed form of `Rewind`: the cursor moves to `marker` exactly when
`marker` is at most both the capacity and the current cursor. -/
theorem Rewind_eq (st : StackState) (marker : Nat) :
    Rewind st marker =
      if marker ≤ st.msize ∧ marker ≤ st.offset then
        { st with offset := marker }
      else st := by
  unfold Rewind
  rcases le_or_lt marker st.msize with h1 | h1
  · rw [if_neg (by omega)]
    rcases le_or_lt marker st.offset with h2 | h2
    · rw [if_neg (by omega), if_pos ⟨h1, h2⟩]
    · rw [if_pos (by omega), if_neg (by omega)]
  · rw [if_pos (by omega), if_neg (by omega)]

/-- After any operation, the peak equals the old peak maxed with the new
cursor (assuming the cursor was within the peak beforehand): an allocation
CAS-maxes the peak against the new cursor, and every other operation leaves
the peak alone while never raising the cursor. -/
theorem stackStep_peakUsage (st : StackState) (op : StackOp)
    (h : st.offset ≤ st.peakUsage) :
    (stackStep st op).peakUsage = max st.peakUsage (stackStep st op).offset := by
  cases op with
  | alloc size alignment =>
    simp only [stackStep]
    rw [Allocate_seq_eq]
    split_ifs <;> simp <;> omega
  | dealloc => exact (Nat.max_eq_left h).symm
  | reset =>
    show st.peakUsage = max st.peakUsage 0
    exact (Nat.max_eq_left (Nat.zero_le _)).symm
  | rewind m =>
    show (Rewind st m).peakUsage = max st.peakUsage (Rewind st m).offset
    rw [Rewind_eq]
    split_ifs with hm
    · exact (Nat.max_eq_left (le_trans hm.2 h)).symm
    · exact (Nat.max_eq_left h).symm

/-- The cursor-within-peak invariant is preserved by every operation. -/
theorem stackStep_offset_le_peak (st : StackState) (op : StackOp)
    (h : st.offset ≤ st.peakUsage) :
    (stackStep st op).offset ≤ (stackStep st op).peakUsage := by
  rw [stackStep_peakUsage st op h]
  exact le_max_right _ _

/-- The peak never decreases across one operation (under the invariant). -/
theorem stackStep_peak_mono (st : StackState) (op : StackOp)
    (h : st.offset ≤ st.peakUsage) :
    st.peakUsage ≤ (stackStep st op).peakUsage := by
  rw [stackStep_peakUsage st op h]
  exact le_max_left _ _

/-- A scan always starts with its seed state. -/
theorem scanl_head (st : StackState) (ops : List StackOp) :
    ∃ t, List.scanl stackStep st ops = st :: t := by
  cases ops with
  | nil => exact ⟨[], by simp⟩
  | cons op rest => exact ⟨List.scanl stackStep (stackStep st op) rest, by simp⟩

/-- The invariant holds along any run. -/
theorem runOps_offset_le_peak (ops : List StackOp) :
    ∀ (st : StackState), st.offset ≤ st.peakUsage →
      (runOps st ops).offset ≤ (runOps st ops).peakUsage := by
  induction ops with
  | nil => intro st h; exact h
  | cons op rest ih =>
    intro st h
    show (runOps (stackStep st op) rest).offset ≤ _
    exact ih _ (stackStep_offset_le_peak st op h)

/-- The peak after a run is the fold of `max` over the starting peak and
every cursor value observed along the run. -/
theorem runOps_peak_foldl (ops : List StackOp) :
    ∀ (st : StackState), st.offset ≤ st.peakUsage →
      (runOps st ops).peakUsage =
        List.foldl max st.peakUsage
          ((List.scanl stackStep st ops).map StackState.offset) := by
  induction ops with
  | nil =>
    intro st h
    simp only [runOps, List.foldl_nil, List.scanl_nil, List.map_cons,
      List.map_nil, List.foldl_cons]
    exact (Nat.max_eq_left h).symm
  | cons op rest ih =>
    intro st h
    have hstep := stackStep_peakUsage st op h
    have hinv := stackStep_offset_le_peak st op h
    show (runOps (stackStep st op) rest).peakUsage = _
    rw [ih (stackStep st op) hinv]
    simp only [List.scanl_cons, List.singleton_append, List.map_cons,
      List.foldl_cons, Nat.max_eq_left h]
    obtain ⟨t, ht⟩ := scanl_head (stackStep st op) rest
    rw [ht]
    simp only [List.map_cons, List.foldl_cons]
    congr 1
    rw [← hstep, Nat.max_eq_left hinv]

/-- A race-free `Allocate` that returns null leaves the state unchanged. -/
theorem Allocate_seq_failure (st : StackState) (size alignment : Nat)
    (st' : StackState)
    (h : Allocate st size alignment [] = (none, st')) : st' = st := by
  rw [Allocate_seq_eq] at h
  split_ifs at h <;>
    (rw [Prod.mk.injEq] at h
     first
     | exact h.2.symm
     | exact absurd h.1 (by simp))

/-- A successful race-free `Allocate`, unpacked: the pointer and new cursor
are those of `allocCompute`, the cursor strictly advanced but stayed within
capacity, and the identity fields are untouched. -/
theorem Allocate_seq_success (st : StackState) (size alignment p : Nat)
    (st' : StackState)
    (h : Allocate st size alignment [] = (some p, st')) :
    p = (allocCompute st size alignment).2.1
    ∧ st'.offset = (allocCompute st size alignment).2.2
    ∧ st.offset < st'.offset
    ∧ st'.offset ≤ st.msize
    ∧ st'.memory = st.memory ∧ st'.msize = st.msize
    ∧ st'.headerSize = st.headerSize := by
  rw [Allocate_seq_eq] at h
  split_ifs at h with h1 h2 h3 h4
  · rw [Prod.mk.injEq] at h
    exact absurd h.1 (by simp)
  · rw [Prod.mk.injEq] at h
    exact absurd h.1 (by simp)
  · rw [Prod.mk.injEq] at h
    exact absurd h.1 (by simp)
  · rw [Prod.mk.injEq] at h
    obtain ⟨hp, hst⟩ := h
    injection hp with hp
    subst hst
    refine ⟨hp.symm, rfl, ?_, ?_, rfl, rfl, rfl⟩
    · show st.offset < (allocCompute st size alignment).2.2
      unfold allocCompute
      dsimp only
      omega
    · show (allocCompute st size alignment).2.2 ≤ st.msize
      omega
  · rw [Prod.mk.injEq] at h
    obtain ⟨hp, hst⟩ := h
    injection hp with hp
    subst hst
    refine ⟨hp.symm, rfl, ?_, ?_, rfl, rfl, rfl⟩
    · show st.offset < (allocCompute st size alignment).2.2
      unfold allocCompute
      dsimp only
      omega
    · show (allocCompute st size alignment).2.2 ≤ st.msize
      omega

/-- Bits `k, …, n-1` of the mask `2^n - 2^k` are set and the rest clear, so
masking `m < 2^n` with it clears the low `k` bits: the result is
`2^k * (m / 2^k)`. -/
theorem land_two_pow_mask (m k n : Nat) (hm : m < 2 ^ n) (hk : k ≤ n) :
    m &&& (2 ^ n - 2 ^ k) = 2 ^ k * (m / 2 ^ k) := by
  have hmask : 2 ^ n - 2 ^ k = (2 ^ (n - k) - 1) <<< k := by
    rw [Nat.shiftLeft_eq, Nat.sub_mul, one_mul, ← pow_add,
      Nat.sub_add_cancel hk]
  have hrhs : 2 ^ k * (m / 2 ^ k) = (m >>> k) <<< k := by
    rw [Nat.shiftRight_eq_div_pow, Nat.shiftLeft_eq, mul_comm]
  rw [hmask, hrhs]
  apply Nat.eq_of_testBit_eq
  intro i
  rw [Nat.testBit_land, Nat.testBit_shiftLeft, Nat.testBit_shiftLeft,
    Nat.testBit_two_pow_sub_one, Nat.testBit_shiftRight]
  by_cases hik : k ≤ i
  · have hik' : decide (i ≥ k) = true := by simpa using hik
    rw [hik', Bool.true_and, Bool.true_and,
      show k + (i - k) = i from by omega]
    by_cases hin : i < n
    · rw [show (decide (i - k < n - k)) = true from by simpa using (by omega : i - k < n - k),
        Bool.and_true]
    · rw [Nat.testBit_lt_two_pow
        (lt_of_lt_of_le hm (Nat.pow_le_pow_right (by norm_num) (by omega))),
        Bool.false_and]
  · have hik' : decide (i ≥ k) = false := by simpa using hik
    rw [hik', Bool.false_and, Bool.false_and, Bool.and_false]

/-- On a power-of-two alignment within the word, `AlignUp` is division
rounding up, scaled back: `2^k * ((x + 2^k - 1) / 2^k)`. -/
theorem AlignUp_two_pow (x k : Nat) (hb : x + 2 ^ k ≤ WORD) :
    AlignUp x (2 ^ k) = 2 ^ k * ((x + 2 ^ k - 1) / 2 ^ k) := by
  have hpos : 0 < 2 ^ k := Nat.pow_pos (by norm_num : 0 < 2)
  have hword : (WORD : Nat) = 2 ^ 64 := rfl
  have hk64 : k ≤ 64 := by
    by_contra hgt
    push_neg at hgt
    have : (2 : Nat) ^ 64 < 2 ^ k := Nat.pow_lt_pow_right (by norm_num) (by omega)
    rw [hword] at hb
    omega
  unfold AlignUp
  rw [hword] at hb ⊢
  rw [Nat.mod_eq_of_lt (by omega), Nat.mod_eq_of_lt (by omega),
    show (2 : Nat) ^ 64 - 1 - (2 ^ k - 1) = 2 ^ 64 - 2 ^ k from by omega]
  exact land_two_pow_mask _ k 64 (by omega) hk64

/-- Rounding up to a multiple of `2^k` never goes below the input. -/
theorem alignUpMul_ge (x k : Nat) (hx : 0 < x) :
    x ≤ 2 ^ k * ((x + 2 ^ k - 1) / 2 ^ k) := by
  have hpos : 0 < 2 ^ k := Nat.pow_pos (by norm_num : 0 < 2)
  rw [show x + 2 ^ k - 1 = (x - 1) + 2 ^ k from by omega,
    Nat.add_div_right _ hpos, Nat.mul_add, Nat.mul_one]
  have hdm := Nat.div_add_mod (x - 1) (2 ^ k)
  have hmod : (x - 1) % 2 ^ k < 2 ^ k := Nat.mod_lt _ hpos
  omega

/-- Rounding up to a multiple of `2^k` adds less than `2^k`. -/
theorem alignUpMul_lt (x k : Nat) :
    2 ^ k * ((x + 2 ^ k - 1) / 2 ^ k) < x + 2 ^ k := by
  have hpos : 0 < 2 ^ k := Nat.pow_pos (by norm_num : 0 < 2)
  rw [mul_comm]
  have h := Nat.div_mul_le_self (x + 2 ^ k - 1) (2 ^ k)
  omega

/-- Geometry of one `allocCompute` under a power-of-two alignment with no
address overflow: the returned pointer is the alignment round-up of the raw
address — a multiple of the alignment, at or above the block base — and
pointer + size lands exactly at base + new cursor. -/
theorem allocCompute_geometry (st : StackState) (size k : Nat)
    (hmem : 0 < st.memory)
    (hb : st.memory + st.offset + st.headerSize + 2 ^ k ≤ WORD) :
    (allocCompute st size (2 ^ k)).2.1 % 2 ^ k = 0
    ∧ st.memory ≤ (allocCompute st size (2 ^ k)).2.1
    ∧ (allocCompute st size (2 ^ k)).2.1 + size
        = st.memory + (allocCompute st size (2 ^ k)).2.2 := by
  unfold allocCompute
  dsimp only
  have hA := AlignUp_two_pow (st.memory + st.offset + st.headerSize) k hb
  have hge := alignUpMul_ge (st.memory + st.offset + st.headerSize) k (by omega)
  have hlt := alignUpMul_lt (st.memory + st.offset + st.headerSize) k
  rw [hA]
  have hmod := Nat.mul_mod_right (2 ^ k)
      ((st.memory + st.offset + st.headerSize + 2 ^ k - 1) / 2 ^ k)
  refine ⟨?_, by omega, by omega⟩
  rw [show st.memory + (st.offset + st.headerSize +
      (2 ^ k * ((st.memory + st.offset + st.headerSize + 2 ^ k - 1) / 2 ^ k) -
        (st.memory + st.offset + st.headerSize))) =
      2 ^ k * ((st.memory + st.offset + st.headerSize + 2 ^ k - 1) / 2 ^ k)
    from by omega]
  exact hmod

/-- Every operation preserves the live-range invariant. -/
theorem liveStep_inv (s : StackState × List (Nat × Nat)) (op : StackOp)
    (h : LiveInv s) : LiveInv (liveStep s op) := by
  obtain ⟨hb, hp⟩ := h
  cases op with
  | alloc size alignment =>
    simp only [liveStep]
    rcases hres : Allocate s.1 size alignment [] with ⟨o, st'⟩
    cases o with
    | none =>
      have hst : st' = s.1 := Allocate_seq_failure _ _ _ _ hres
      subst hst
      exact ⟨hb, hp⟩
    | some p =>
      obtain ⟨_, _, hlt, _, _, _, _⟩ := Allocate_seq_success _ _ _ _ _ hres
      constructor
      · intro r hr
        rcases List.mem_cons.mp hr with hr | hr
        · subst hr
          exact ⟨hlt, le_refl _⟩
        · obtain ⟨h1, h2⟩ := hb r hr
          exact ⟨h1, le_trans h2 (le_of_lt hlt)⟩
      · refine List.Pairwise.cons ?_ hp
        intro r hr
        exact Or.inr (hb r hr).2
  | dealloc => exact ⟨hb, hp⟩
  | reset =>
    refine ⟨?_, List.Pairwise.nil⟩
    intro r hr
    exact absurd hr (List.not_mem_nil r)
  | rewind m =>
    simp only [liveStep]
    split_ifs with hm
    · constructor
      · intro r hr
        have hr' := List.mem_of_mem_filter hr
        have hcond := List.of_mem_filter hr
        obtain ⟨h1, _⟩ := hb r hr'
        refine ⟨h1, ?_⟩
        rw [show (Rewind s.1 m).offset = m from by rw [Rewind_eq, if_pos hm]]
        exact of_decide_eq_true hcond
      · exact hp.sublist (List.filter_sublist s.2)
    · rw [show Rewind s.1 m = s.1 from by rw [Rewind_eq, if_neg hm]]
      exact ⟨hb, hp⟩

/-- The live-range invariant holds after any run from an invariant state. -/
theorem runLive_inv (ops : List StackOp) :
    ∀ (s : StackState × List (Nat × Nat)), LiveInv s →
      LiveInv (runLive s ops) := by
  induction ops with
  | nil => intro s h; exact h
  | cons op rest ih =>
    intro s h
    show LiveInv (runLive (liveStep s op) rest)
    exact ih _ (liveStep_inv s op h)

/-- `GetZoneSizeAux` returns the clamped size of the first matching entry. -/
theorem GetZoneSizeAux_found (totalSize : Nat) (z : MemoryZone) :
    ∀ (l : List ZoneAllocation) (a : ZoneAllocation),
      l.find? (fun x => x.zone = z) = some a →
      GetZoneSizeAux totalSize z l = clampedZoneSize totalSize a := by
  intro l
  induction l with
  | nil => intro a h; exact absurd h (by simp)
  | cons b rest ih =>
    intro a h
    unfold GetZoneSizeAux
    by_cases hz : b.zone = z
    · rw [if_pos hz]
      rw [List.find?_cons_of_pos _ (by simpa using hz)] at h
      cases h
      rfl
    · rw [if_neg hz]
      rw [List.find?_cons_of_neg _ (by simpa using hz)] at h
      exact ih a h

/-- `GetZoneSizeAux` returns 0 when no entry matches the requested zone. -/
theorem GetZoneSizeAux_not_found (totalSize : Nat) (z : MemoryZone) :
    ∀ (l : List ZoneAllocation), (∀ a ∈ l, a.zone ≠ z) →
      GetZoneSizeAux totalSize z l = 0 := by
  intro l
  induction l with
  | nil => intro _; rfl
  | cons a rest ih =>
    intro h
    unfold GetZoneSizeAux
    rw [if_neg (h a (List.mem_cons_self a rest))]
    exact ih fun b hb => h b (List.mem_cons_of_mem a hb)

-- ========================================
-- Claim theorems
-- ========================================

/-- C1: the claim says an initialized Manager with sufficient zone capacity
gets a non-null owning handle from `CreateStackAllocator`. The source
instead ends in `return nullptr;` under a TODO comment, so the handle is
null for every state, zone and size — first conjunct. The remaining
conjuncts evaluate the failing input: `mgrC1` is initialized, the adjusted
2 MiB request is unchanged by size validation, and the zone carve itself
succeeds (capacity is sufficient), yet the returned handle is null. -/
theorem CreateStackAllocator_always_null :
    (∀ (st : ManagerState) (zone : MemoryZone) (size : Nat),
        (CreateStackAllocator st zone size).1 = none)
    ∧ mgrC1.initialized_ = true
    ∧ AdjustToRecommended (2 * sizes.MB) .Stack = 2 * sizes.MB
    ∧ (AllocateFromZone mgrC1 .FrameTemp (2 * sizes.MB)).1 = some 4096
    ∧ (CreateStackAllocator mgrC1 .FrameTemp (2 * sizes.MB)).1 = none := by
  refine ⟨?_, rfl, by decide, by decide, ?_⟩
  · intro st zone size
    unfold CreateStackAllocator
    split
    · rfl
    · dsimp only
      split
      · rfl
      · rfl
  · unfold CreateStackAllocator
    split
    · rfl
    · dsimp only
      split
      · rfl
      · rfl

/-- C2 counterexample: with a fresh (default-constructed) Manager and a
budget of 123 bytes whose OS reservation fails, `Initialize` returns false
but the stored budget and the global memory size are NOT the same as before
the call — they were overwritten before the reservation was attempted. -/
theorem Initialize_osFailure_keeps_partial_state :
    (Initialize osFail initialManager budget123).1 = false
    ∧ (Initialize osFail initialManager budget123).2.1.globalMemorySize_ ≠
        initialManager.globalMemorySize_
    ∧ (Initialize osFail initialManager budget123).2.1.budget_ ≠
        initialManager.budget_ := by
  exact ⟨rfl, by decide, by decide⟩

/-- C2 amended: when the Manager is uninitialized and the OS reservation
fails, `Initialize` returns false and performs no zone setup, keeps the
global memory pointer null, does not set the initialized flag, and leaves
the zone table, registry and statistics untouched — but the stored budget
and global memory size fields retain the freshly supplied budget's values
(they are written before the reservation is attempted). -/
theorem Initialize_osFailure_state (os : Nat → Option Nat)
    (st : ManagerState) (budget : MemoryBudget)
    (hinit : st.initialized_ = false)
    (hos : os budget.totalSize = none) :
    Initialize os st budget =
      (false,
       { st with budget_ := budget,
                 globalMemorySize_ := budget.totalSize,
                 globalMemory_ := none },
       1) := by
  unfold Initialize
  rw [hinit]
  simp only [Bool.false_eq_true, if_false, hos]

/-- C2 witness: the amended statement applied to the concrete failing
input of the counterexample. -/
theorem Initialize_osFailure_state_witness :
    Initialize osFail initialManager budget123 =
      (false,
       { initialManager with budget_ := budget123,
                             globalMemorySize_ := budget123.totalSize,
                             globalMemory_ := none },
       1) :=
  Initialize_osFailure_state osFail initialManager budget123 rfl rfl

/-- C3: the spec says every failed compare-and-exchange increments the CAS
retry counter. The source never writes `m_casRetryCount` at all (it is
initialized to 0, displayed by `GetDebugInfo`, and never incremented), so
after any `Allocate` call — whatever interference schedule the concurrent
threads produced — the counter is unchanged. In particular, on the concrete
run with one lost CAS race the counter stays 0 instead of growing to 1,
although the allocation itself succeeds. -/
theorem Allocate_casRetryCount_never_incremented :
    (∀ (st : StackState) (size alignment : Nat) (sched : List Nat),
        ((Allocate st size alignment sched).2).casRetryCount = st.casRetryCount)
    ∧ (Allocate (mkStackAllocator 16 1024 0) 1 1 [3]).1 ≠ none
    ∧ ((Allocate (mkStackAllocator 16 1024 0) 1 1 [3]).2).casRetryCount = 0
    ∧ (mkStackAllocator 16 1024 0).casRetryCount + 1 = 1 := by
  refine ⟨?_, by decide, by decide, rfl⟩
  intro st size alignment sched
  exact Allocate_casRetryCount st size alignment sched

/-- C7: `Rewind(marker)` sets the cursor to `marker` exactly when
`marker ≤ capacity` and `marker ≤ current cursor`; otherwise it returns
with every field (cursor included) unchanged. -/
theorem Rewind_spec (st : StackState) (marker : Nat) :
    Rewind st marker =
      if marker ≤ st.msize ∧ marker ≤ st.offset then
        { st with offset := marker }
      else st :=
  Rewind_eq st marker

/-- C9: over any operation sequence against a fresh stack allocator,
`GetPeakUsage` never decreases from one point to the next, and after the
whole sequence it equals the maximum `GetUsedMemory` value observed at any
point of the run (the scan lists the state at every point, the initial one
included). `Reset` and `Rewind` lower the cursor but never the peak. -/
theorem GetPeakUsage_monotone_and_max (memory msize headerSize : Nat)
    (ops : List StackOp) :
    (∀ op : StackOp,
        GetPeakUsage (runOps (mkStackAllocator memory msize headerSize) ops) ≤
          GetPeakUsage
            (runOps (mkStackAllocator memory msize headerSize) (ops ++ [op])))
    ∧ GetPeakUsage (runOps (mkStackAllocator memory msize headerSize) ops) =
        List.foldl max 0
          ((List.scanl stackStep (mkStackAllocator memory msize headerSize)
              ops).map GetUsedMemory) := by
  constructor
  · intro op
    show (runOps _ ops).peakUsage ≤ (runOps _ (ops ++ [op])).peakUsage
    simp only [runOps, List.foldl_append, List.foldl_cons, List.foldl_nil]
    exact stackStep_peak_mono _ op
      (runOps_offset_le_peak ops (mkStackAllocator memory msize headerSize)
        (Nat.le_refl 0))
  · exact runOps_peak_foldl ops (mkStackAllocator memory msize headerSize)
      (Nat.le_refl 0)

/-- C8: a second `Initialize` call on an already-initialized Manager
returns true, invokes the OS reservation primitive zero times, and leaves
the entire Manager state unchanged even for a different budget (first
conjunct). Second conjunct: the two-call scenario — from an uninitialized
state whose reservation succeeds, the first call returns true with exactly
one OS reservation, and the second call (any budget) returns true with
zero further reservations and the state of the first call. -/
theorem Initialize_second_call_no_reservation :
    (∀ (os : Nat → Option Nat) (st : ManagerState) (budget : MemoryBudget),
        st.initialized_ = true → Initialize os st budget = (true, st, 0))
    ∧ (∀ (os : Nat → Option Nat) (st : ManagerState)
         (budget budget' : MemoryBudget) (base : Nat),
        st.initialized_ = false → os budget.totalSize = some base →
        (Initialize os st budget).1 = true
        ∧ (Initialize os st budget).2.2 = 1
        ∧ Initialize os (Initialize os st budget).2.1 budget' =
            (true, (Initialize os st budget).2.1, 0)) := by
  constructor
  · intro os st budget h
    unfold Initialize
    rw [h]
    rfl
  · intro os st budget budget' base hinit hos
    have hres : Initialize os st budget =
        (true,
         { st with budget_ := budget,
                   globalMemorySize_ := budget.totalSize,
                   globalMemory_ := some base,
                   zones_ := InitializeZonesAux budget st.zones_ base
                       budget.zoneAllocations,
                   initialized_ := true },
         1) := by
      unfold Initialize
      rw [hinit]
      simp only [Bool.false_eq_true, if_false, hos, InitializeZones,
        Bool.not_true]
    refine ⟨by rw [hres], by rw [hres], ?_⟩
    rw [hres]
    unfold Initialize
    rfl

/-- C8 witness: both conjuncts at concrete inputs — a manager initialized
with `budget123` under an always-succeeding OS bridge, re-initialized with
`budget456`. -/
theorem Initialize_second_call_no_reservation_witness :
    Initialize osOk (Initialize osOk initialManager budget123).2.1 budget456 =
      (true, (Initialize osOk initialManager budget123).2.1, 0)
    ∧ Initialize osOk mgrC1 budget456 = (true, mgrC1, 0) :=
  ⟨(Initialize_second_call_no_reservation.2 osOk initialManager budget123
      budget456 4096 rfl rfl).2.2,
   Initialize_second_call_no_reservation.1 osOk mgrC1 budget456 rfl⟩

/-- C5: for a zone whose first budget entry is `a` (with coherent bounds
`minSize ≤ maxSize` and a forward weight), `GetZoneSize` equals the spec's
`clamp(totalSize * percentage, minSize, maxSize)`; hence it always lies in
`[minSize, maxSize]` whatever the weight and total are, a zero total yields
exactly `minSize`, and the concrete scenario (100 MiB total, weight 0.5,
min 10 MiB, max 80 MiB) yields 50 MiB. -/
theorem GetZoneSize_is_clamped (b : MemoryBudget) (z : MemoryZone)
    (a : ZoneAllocation)
    (hfind : b.zoneAllocations.find? (fun x => x.zone = z) = some a)
    (hbounds : a.minSize ≤ a.maxSize) :
    b.GetZoneSize z = zoneSizeSpec b.totalSize a
    ∧ a.minSize ≤ b.GetZoneSize z
    ∧ b.GetZoneSize z ≤ a.maxSize
    ∧ (b.totalSize = 0 → b.GetZoneSize z = a.minSize)
    ∧ budget100.GetZoneSize .General = 50 * sizes.MB := by
  have hcode : b.GetZoneSize z = clampedZoneSize b.totalSize a :=
    GetZoneSizeAux_found b.totalSize z b.zoneAllocations a hfind
  have hspec : clampedZoneSize b.totalSize a = zoneSizeSpec b.totalSize a := by
    unfold clampedZoneSize zoneSizeSpec
    dsimp only
    rw [Nat.max_def, Nat.min_def]
    split_ifs <;> omega
  have hzero : b.totalSize = 0 → b.GetZoneSize z = a.minSize := by
    intro h0
    rw [hcode]
    unfold clampedZoneSize
    dsimp only
    have hv : castToSizeT ((b.totalSize : Rat) * a.percentage) = 0 := by
      rw [h0]
      simp [castToSizeT]
    rw [hv]
    rcases Nat.eq_zero_or_pos a.minSize with hm | hm
    · rw [hm]
      simp only [Nat.lt_irrefl, if_false]
      rw [if_neg (by omega)]
    · rw [if_pos hm, if_neg (by omega)]
  refine ⟨by rw [hcode, hspec], ?_, ?_, hzero, ?_⟩
  · rw [hcode, hspec]
    unfold zoneSizeSpec
    exact le_min hbounds (le_max_left _ _)
  · rw [hcode, hspec]
    exact min_le_left _ _
  · show GetZoneSizeAux budget100.totalSize .General budget100.zoneAllocations
        = 50 * sizes.MB
    unfold budget100 GetZoneSizeAux
    rw [if_pos rfl]
    unfold clampedZoneSize
    dsimp only
    have hv : castToSizeT (((100 * sizes.MB : Nat) : Rat) * ((1 : Rat)/2))
        = 50 * sizes.MB := by
      norm_num [castToSizeT, sizes.MB, sizes.KB]
      rfl
    rw [hv]
    norm_num [sizes.MB, sizes.KB]

/-- C5 witness: the clamped-size statement applied to the scenario budget
and its single `General` entry. -/
theorem GetZoneSize_is_clamped_witness :
    budget100.GetZoneSize .General =
      zoneSizeSpec budget100.totalSize
        { zone := .General, percentage := (1 : Rat)/2,
          minSize := 10 * sizes.MB, maxSize := 80 * sizes.MB,
          canGrow := true } :=
  (GetZoneSize_is_clamped budget100 .General _ rfl (by norm_num [sizes.MB, sizes.KB])).1

/-- C6: `Allocate(size, alignment)` (race-free) returns null exactly when
`size == 0`, or the alignment is not a power of two, or the aligned end of
the request exceeds the capacity; every null return leaves the allocator
state completely unchanged, and in every other case it succeeds with a
non-null pointer. -/
theorem Allocate_null_iff (st : StackState) (size alignment : Nat)
    (hmem : 0 < st.memory) :
    ((Allocate st size alignment []).1 = none ↔
        size = 0 ∨ IsPowerOfTwo alignment = false ∨
          st.msize < (allocCompute st size alignment).2.2)
    ∧ ((Allocate st size alignment []).1 = none →
        (Allocate st size alignment []).2 = st)
    ∧ (∀ p, (Allocate st size alignment []).1 = some p → 0 < p) := by
  rw [Allocate_seq_eq]
  by_cases hsize : size = 0
  · rw [if_pos hsize]
    exact ⟨by simp [hsize], fun _ => rfl, fun p hp => absurd hp (by simp)⟩
  · rw [if_neg hsize]
    by_cases hpow : IsPowerOfTwo alignment
    · rw [hpow]
      simp only [Bool.not_true, Bool.false_eq_true, if_false]
      rcases le_or_lt (allocCompute st size alignment).2.2 st.msize with hc | hc
      · rw [if_neg (by omega)]
        refine ⟨?_, fun h => absurd h (by simp), ?_⟩
        · simp only [reduceCtorEq, false_iff]
          intro h
          rcases h with h | h | h
          · exact hsize h
          · exact h.elim
          · omega
        · intro p hp
          have hp' : (allocCompute st size alignment).2.1 = p := by
            simpa using hp
          rw [← hp']
          show 0 < st.memory + _
          omega
      · rw [if_pos (by omega)]
        exact ⟨by simp [hc], fun _ => rfl, fun p hp => absurd hp (by simp)⟩
    · have hpow' : (!IsPowerOfTwo alignment) = true := by
        simp [Bool.eq_false_iff.mpr hpow]
      rw [if_pos hpow']
      refine ⟨?_, fun _ => rfl, fun p hp => absurd hp (by simp)⟩
      simp only [true_iff]
      exact Or.inr (Or.inl (Bool.eq_false_iff.mpr hpow))

/-- C6 witness: at the concrete allocator over base 16 with 1024 bytes of
capacity, a zero-size request returns null, and a 100-byte 16-aligned
request succeeds with the non-null pointer 16. -/
theorem Allocate_null_iff_witness :
    (Allocate (mkStackAllocator 16 1024 0) 0 16 []).1 = none
    ∧ (0 : Nat) < 16 :=
  ⟨(Allocate_null_iff (mkStackAllocator 16 1024 0) 0 16 (by decide)).1.mpr
      (Or.inl rfl),
   by decide⟩

/-- C10: a zone with no entry in the budget's zone allocation list gets 0
from `GetZoneSize` — the minimum-size guarantee applies only to listed
zones. -/
theorem GetZoneSize_unlisted_zone (b : MemoryBudget) (z : MemoryZone)
    (h : ∀ a ∈ b.zoneAllocations, a.zone ≠ z) :
    b.GetZoneSize z = 0 :=
  GetZoneSizeAux_not_found b.totalSize z b.zoneAllocations h

/-- C10 witness: the scenario budget lists only the `General` zone, so the
`Audio` zone's size is 0. -/
theorem GetZoneSize_unlisted_zone_witness :
    budget100.GetZoneSize .Audio = 0 :=
  GetZoneSize_unlisted_zone budget100 .Audio (by decide)

/-- C4 counterexample: under the claim's liveness reading — an allocation
stays live unless a later Reset/Rewind went to a marker at or below its
reserved start — the sequence `Allocate(10,1); Rewind(5); Allocate(10,1)`
on a fresh 100-byte allocator leaves both allocations live with reserved
ranges `[5,15)` and `[0,10)`, which overlap: the rewind landed strictly
inside the first range, so it killed neither, yet freed bytes 5..9 for the
second allocation. -/
theorem live_ranges_overlap_after_midrange_rewind :
    (runLiveClaim (mkStackAllocator 16 100 0, [])
        [.alloc 10 1, .rewind 5, .alloc 10 1]).2 = [(5, 15), (0, 10)]
    ∧ ¬ List.Pairwise RangeDisjoint
        (runLiveClaim (mkStackAllocator 16 100 0, [])
          [.alloc 10 1, .rewind 5, .alloc 10 1]).2 :=
  ⟨by decide, by decide⟩

/-- C4 (amended): a successful race-free `Allocate(size, 2^k)` (with a
non-null base and no address overflow) returns a pointer that is a multiple
of the alignment, lies at or above the base, and whose payload end stays
within `base + capacity`; and along any operation sequence the reserved
ranges of the live allocations are pairwise disjoint, where an allocation
stays live only until a Reset or a Rewind to a marker below its reserved
END (a rewind into the middle of a range invalidates it — the correction
the counterexample forces). -/
theorem Allocate_aligned_bounded_disjoint :
    (∀ (st : StackState) (size alignment k p : Nat) (st' : StackState),
        alignment = 2 ^ k →
        0 < st.memory →
        st.memory + st.offset + st.headerSize + alignment ≤ WORD →
        Allocate st size alignment [] = (some p, st') →
        p % alignment = 0
        ∧ st.memory ≤ p
        ∧ p + size ≤ st.memory + st.msize)
    ∧ (∀ (memory msize headerSize : Nat) (ops : List StackOp),
        List.Pairwise RangeDisjoint
          (runLive (mkStackAllocator memory msize headerSize, []) ops).2) := by
  constructor
  · intro st size alignment k p st' halign hmem hover hsuc
    subst halign
    obtain ⟨hpeq, hoff, _, hle, _, _, _⟩ :=
      Allocate_seq_success _ _ _ _ _ hsuc
    obtain ⟨g1, g2, g3⟩ := allocCompute_geometry st size k hmem hover
    refine ⟨by rw [hpeq]; exact g1, by rw [hpeq]; exact g2, ?_⟩
    rw [hpeq, g3, ← hoff]
    omega
  · intro memory msize headerSize ops
    exact (runLive_inv ops (mkStackAllocator memory msize headerSize, [])
      ⟨fun r hr => absurd hr (List.not_mem_nil r), List.Pairwise.nil⟩).2

/-- C4 witness: the amended statement at concrete inputs — a successful
`Allocate(100, 16)` on a fresh allocator at base 16 with 1024 bytes, and
the live ranges of the counterexample's operation sequence under the
corrected liveness, now disjoint. -/
theorem Allocate_aligned_bounded_disjoint_witness :
    ((16 : Nat) % 16 = 0 ∧ (16 : Nat) ≤ 16 ∧ (16 : Nat) + 100 ≤ 16 + 1024)
    ∧ List.Pairwise RangeDisjoint
        (runLive (mkStackAllocator 16 100 0, [])
          [.alloc 10 1, .rewind 5, .alloc 10 1]).2 :=
  ⟨Allocate_aligned_bounded_disjoint.1 (mkStackAllocator 16 1024 0) 100 16 4 16
      { memory := 16, msize := 1024, offset := 100, peakUsage := 100,
        allocationCount := 1, casRetryCount := 0, headerSize := 0 }
      (by decide) (by decide) (by decide) (by decide),
   Allocate_aligned_bounded_disjoint.2 16 100 0
      [.alloc 10 1, .rewind 5, .alloc 10 1]⟩

end ElkSpec
